import Mathlib

/-!
Shallow embedding of the automation core of the `inbox-copilot` repository
(`src/backend/automations/{parser,tables,engine,scheduler}.py`) and proofs of
the behavioural claims about it.

Conventions of the embedding:
* Python `dict` payloads are association lists in insertion order.
* Python numbers (ints and floats) are modelled as exact rationals `ℚ`;
  Python `bool` is kept as a separate constructor but counts as a number for
  `isinstance(x, (int, float))`, as in Python.
* MongoDB collections are Lean lists of documents; `update_one` updates the
  first document matching the filter.
* `datetime.utcnow()` is modelled by a single `now : Nat` per operation, and
  external id generation (`ObjectId()`) by an injected `freshId` supply.
* The email service (external gateway) is an oracle record whose calls return
  `Except String _`; a `.error` models a raised exception.
-/

namespace InboxCopilot

/-! ### Python string primitives -/

/-- Python `\s` (regex whitespace), restricted to the ASCII whitespace
characters, the only ones that occur in the texts under study. -/
def pyIsSpace (c : Char) : Bool :=
  c = ' ' || c = '\t' || c = '\n' || c = '\r' || c = Char.ofNat 11 || c = Char.ofNat 12

/-- Python `str.lower` per character, restricted to ASCII and Latin-1 letters
(the alphabet occurring in the repository's vocabulary). -/
def pyLowerChar (c : Char) : Char :=
  if 'A' ≤ c ∧ c ≤ 'Z' then Char.ofNat (c.toNat + 32)
  else if Char.ofNat 0xC0 ≤ c ∧ c ≤ Char.ofNat 0xDE ∧ c ≠ Char.ofNat 0xD7 then
    Char.ofNat (c.toNat + 32)
  else c

/-- Python `str.upper` per character, same restricted alphabet. -/
def pyUpperChar (c : Char) : Char :=
  if 'a' ≤ c ∧ c ≤ 'z' then Char.ofNat (c.toNat - 32)
  else if Char.ofNat 0xE0 ≤ c ∧ c ≤ Char.ofNat 0xFE ∧ c ≠ Char.ofNat 0xF7 then
    Char.ofNat (c.toNat - 32)
  else c

/-- A character that Python's `str.title` treats as cased (a letter of the
restricted alphabet). -/
def pyIsCased (c : Char) : Bool :=
  ('a' ≤ c ∧ c ≤ 'z') || ('A' ≤ c ∧ c ≤ 'Z') ||
  (Char.ofNat 0xC0 ≤ c ∧ c ≤ Char.ofNat 0xFE ∧ c ≠ Char.ofNat 0xD7 ∧ c ≠ Char.ofNat 0xF7)

def pyLowerList (cs : List Char) : List Char := cs.map pyLowerChar

/-- Python `str.lower`. -/
def pyLower (s : String) : String := String.mk (pyLowerList s.data)

/-- Python `str.title`: the first letter of every run of cased characters is
uppercased, the following ones lowercased. -/
def pyTitleList : Bool → List Char → List Char
  | _, [] => []
  | prevCased, c :: cs =>
    (if prevCased then pyLowerChar c else pyUpperChar c) :: pyTitleList (pyIsCased c) cs

def pyTitle (s : String) : String := String.mk (pyTitleList false s.data)

/-- Python substring test `needle in hay` on character lists. -/
def subList (n : List Char) : List Char → Bool
  | [] => n.isEmpty
  | c :: t => n.isPrefixOf (c :: t) || subList n t

/-- Python substring test `needle in hay` on strings. -/
def pyContains (hay needle : String) : Bool := subList needle.data hay.data

/-- Accumulating splitter behind `pySplitWS`; `cur` holds the current piece
reversed. -/
def splitWSAux : List Char → List Char → List String
  | cur, [] => if cur.isEmpty then [] else [String.mk cur.reverse]
  | cur, c :: rest =>
    if pyIsSpace c then
      if cur.isEmpty then splitWSAux [] rest
      else String.mk cur.reverse :: splitWSAux [] rest
    else splitWSAux (c :: cur) rest

/-- Python `str.split()` with no argument: split on runs of whitespace,
discarding empty pieces. -/
def pySplitWS (s : String) : List String := splitWSAux [] s.data

/-! ### A miniature regex engine

Just enough to embed the fixed patterns of `parser.py`: literal pieces,
literal alternations, optional literal alternations, `\s+`, `\s*` and `.*`
(`.` = any character but a newline, as in Python without `DOTALL`).
A pattern is a token sequence; `matchToks` decides whether some way of
consuming the list matches all tokens (set semantics, which agrees with
`re.search` used as a boolean). -/

inductive Tok where
  | lit (s : String)
  | alts (ls : List String)
  | optAlts (ls : List String)
  | ws1
  | ws0
  | dotstar
deriving Repr

def matchToks : List Tok → List Char → Bool
  | [], _ => true
  | .lit l :: ts, s => l.data.isPrefixOf s && matchToks ts (s.drop l.data.length)
  | .alts ls :: ts, s =>
    ls.any (fun l => l.data.isPrefixOf s && matchToks ts (s.drop l.data.length))
  | .optAlts ls :: ts, s =>
    matchToks ts s || ls.any (fun l => l.data.isPrefixOf s && matchToks ts (s.drop l.data.length))
  | .ws1 :: ts, s =>
    (List.range (s.takeWhile pyIsSpace).length).any (fun i => matchToks ts (s.drop (i + 1)))
  | .ws0 :: ts, s =>
    (List.range ((s.takeWhile pyIsSpace).length + 1)).any (fun i => matchToks ts (s.drop i))
  | .dotstar :: ts, s =>
    (List.range ((s.takeWhile (fun c => c ≠ '\n')).length + 1)).any
      (fun i => matchToks ts (s.drop i))

/-- Boolean `re.search(pattern, s)`: a match may start at any position. -/
def reSearch (p : List Tok) (s : List Char) : Bool :=
  (List.range (s.length + 1)).any (fun i => matchToks p (s.drop i))

/-! ### `parser.py`

The source file is double-encoded: where the author wrote `é`, `è`, `à`, `€`
the file actually contains the mojibake sequences `√©` (U+221A U+00A9),
`√®` (U+221A U+00AE), `√†` (U+221A U+2020) and `‚Ç¨` (U+201A U+00C7 U+00A8).
The embedding reproduces those literal characters faithfully. -/

def KNOWN_VENDORS : List (String × List String) := [
  ("distram", ["distram", "facturation@distram.com"]),
  ("promocash", ["promocash", "no-reply@promocash.com"]),
  ("metro", ["metro", "factures@metro.fr"]),
  ("transgourmet", ["transgourmet"]),
  ("brake", ["brake"]),
  ("davigel", ["davigel"]),
  ("sysco", ["sysco"]),
  ("pomona", ["pomona"]),
  ("khadispal", ["khadispal"]),
  ("orcun", ["orcun"])]

def FREQUENCY_PATTERNS : List (String × List (List Tok)) := [
  ("daily", [[.lit "chaque", .ws1, .lit "jour"],
             [.lit "tous", .ws1, .lit "les", .ws1, .lit "jours"],
             [.lit "quotidien"]]),
  ("weekly", [[.lit "chaque", .ws1, .lit "semaine"],
              [.alts ["toutes", "toute"], .ws1, .lit "les", .ws1, .alts ["semaines", "semaine"]],
              [.lit "hebdomadaire"]]),
  ("monthly", [[.lit "chaque", .ws1, .lit "mois"],
               [.lit "tous", .ws1, .lit "les", .ws1, .lit "mois"],
               [.lit "mensuel"]]),
  ("monday", [[.lit "chaque", .ws1, .lit "lundi"],
              [.lit "tous", .ws1, .lit "les", .ws1, .alts ["lundis", "lundi"]]]),
  ("friday", [[.lit "chaque", .ws1, .lit "vendredi"],
              [.lit "tous", .ws1, .lit "les", .ws1, .alts ["vendredis", "vendredi"]]])]

def DAY_MAPPING : List (String × Nat) := [
  ("lundi", 0), ("mardi", 1), ("mercredi", 2), ("jeudi", 3),
  ("vendredi", 4), ("samedi", 5), ("dimanche", 6),
  ("monday", 0), ("tuesday", 1), ("wednesday", 2), ("thursday", 3),
  ("friday", 4), ("saturday", 5), ("sunday", 6)]

def lookupStr {α : Type} (l : List (String × α)) (k : String) : Option α :=
  (l.find? (fun p => p.1 = k)).map (fun p => p.2)

/-- One iteration of the vendor loop: a vendor is collected when one of its
aliases is a substring of the lowercased text, skipped when already
collected. -/
def vendorStep (textLower : String) (acc : List String) (kv : String × List String) :
    List String :=
  if kv.2.any (fun al => subList (pyLower al).data textLower.data) then
    if acc.contains kv.1 then acc else acc ++ [kv.1]
  else acc

/-- Embeds `extract_vendors`: scan the alias table in declaration order,
collecting each vendor at most once. -/
def extract_vendors (text : String) : List String :=
  KNOWN_VENDORS.foldl (vendorStep (pyLower text)) []

/-- Embeds `extract_frequency`: a day name takes precedence, then the frequency
pattern table, then the weekly-Monday default. -/
def extract_frequency (text : String) : String × Option Nat :=
  let textLower := pyLower text
  match DAY_MAPPING.find? (fun p => pyContains textLower p.1) with
  | some p => ("weekly", some p.2)
  | none =>
    match FREQUENCY_PATTERNS.find? (fun fp => fp.2.any (fun pat => reSearch pat textLower.data)) with
    | some fp =>
      if fp.1 = "monday" || fp.1 = "friday" then
        ("weekly",
          some ((lookupStr DAY_MAPPING
            ((fp.1.replace "monday" "lundi").replace "friday" "vendredi")).getD 0))
      else (fp.1, none)
    | none => ("weekly", some 0)

/-- The character class `[√†a]` of the hour regex (mojibake of `[àa]`). -/
def hourClass (c : Char) : Bool :=
  c = Char.ofNat 0x221A || c = Char.ofNat 0x2020 || c = 'a'

def digitVal (c : Char) : Nat := c.toNat - 48

/-- Continuation `\s*(\d{1,2})\s*h` of the hour regex, right after the class
character; the digit group is greedy. -/
def hourTail (cs : List Char) : Option Nat :=
  match cs.dropWhile pyIsSpace with
  | d1 :: tail =>
    if d1.isDigit then
      match tail with
      | d2 :: tail2 =>
        if d2.isDigit && ((tail2.dropWhile pyIsSpace).headD ' ' = 'h') then
          some (10 * digitVal d1 + digitVal d2)
        else if (tail.dropWhile pyIsSpace).headD ' ' = 'h' then
          some (digitVal d1)
        else none
      | [] => none
    else none
  | [] => none

/-- Leftmost match of `[√†a]\s*(\d{1,2})\s*h`, returning the captured hour. -/
def searchHour : List Char → Option Nat
  | [] => none
  | c :: cs =>
    if hourClass c then
      match hourTail cs with
      | some v => some v
      | none => searchHour cs
    else searchHour cs

/-- Embeds `extract_hour`: regex first, then `matin` → 9, `soir` → 18, default 9. -/
def extract_hour (text : String) : Nat :=
  match searchHour (pyLower text).data with
  | some v => v
  | none =>
    if pyContains (pyLower text) "matin" then 9
    else if pyContains (pyLower text) "soir" then 18
    else 9

/-- The eight intent patterns of `detect_automation_intent`, in order. -/
def automationPatterns : List (List Tok) := [
  [.alts ["cr√©e", "cr√©er", "cr√©ez", "fais", "faire", "met", "mets", "mettre"],
   .ws0, .optAlts ["en place"], .ws0, .optAlts ["une", "un", "le", "la"],
   .ws0, .lit "automatisation"],
  [.lit "automatise"],
  [.lit "chaque", .ws1,
   .alts ["semaine", "jour", "mois", "lundi", "mardi", "mercredi", "jeudi", "vendredi"]],
  [.lit "tous", .ws1, .lit "les", .ws1,
   .alts ["jours", "semaines", "mois", "lundis", "lundi", "mardis", "mardi"]],
  [.lit "r√©cup√®re", .dotstar, .lit "automatiquement"],
  [.lit "surveille", .dotstar, .lit "et", .dotstar, .alts ["alerte", "notifie"]],
  [.alts ["envoie", "envoi"], .dotstar, .lit "rapport", .dotstar, .lit "chaque"],
  [.lit "met", .dotstar, .lit "dans", .dotstar, .lit "tableau", .dotstar, .lit "chaque"]]

def detect_automation_intent (text : String) : Bool :=
  automationPatterns.any (fun p => reSearch p (pyLower text).data)

/-- Embeds `extract_automation_name` (the `text` argument is unused in the source
too). -/
def extract_automation_name (_text : String) (vendors : List String) : String :=
  match vendors with
  | [] => "Suivi automatique"
  | [v] => "Suivi factures " ++ pyTitle v
  | vs =>
    if vs.length ≤ 3 then "Suivi " ++ String.intercalate ", " (vs.map pyTitle)
    else "Suivi factures fournisseurs"

def alertPattern : List Tok := [.alts ["alerte", "notifie", "pr√©viens"]]

/-- The mojibake residue of the euro sign in the threshold regex. -/
def euroSeq : List Char := "‚Ç¨".data

def natFromDigits (ds : List Char) : Nat :=
  ds.foldl (fun n c => 10 * n + digitVal c) 0

def euroAfter (cs : List Char) : Bool :=
  euroSeq.isPrefixOf (cs.dropWhile pyIsSpace)

/-- One attempt, at a fixed position, of `(\d+(?:[.,]\d+)?)\s*‚Ç¨`. -/
def thresholdAt (cs : List Char) : Option ℚ :=
  let ds := cs.takeWhile Char.isDigit
  if ds.isEmpty then none
  else
    let intPart : ℚ := natFromDigits ds
    let rest := cs.drop ds.length
    match rest with
    | sep :: r2 =>
      if sep = '.' || sep = ',' then
        let fs := r2.takeWhile Char.isDigit
        if fs.isEmpty then
          if euroAfter rest then some intPart else none
        else
          if euroAfter (r2.drop fs.length) then
            some (intPart + (natFromDigits fs : ℚ) / ((10 : ℚ) ^ fs.length))
          else none
      else if euroAfter rest then some intPart else none
    | [] => none

/-- Leftmost match of the threshold regex, as `float(...)` of the capture. -/
def searchThreshold : List Char → Option ℚ
  | [] => none
  | c :: cs =>
    match thresholdAt (c :: cs) with
    | some v => some v
    | none => searchThreshold cs

/-- The cron derivation of `parse_automation_request` (lines 177–185). -/
def buildCron (frequency : String) (day_of_week : Option Nat) (hour : Nat) : String :=
  if frequency = "daily" then "0 " ++ toString hour ++ " * * *"
  else if frequency = "weekly" then
    "0 " ++ toString hour ++ " * * " ++ toString (day_of_week.getD 0)
  else if frequency = "monthly" then "0 " ++ toString hour ++ " 1 * *"
  else "0 " ++ toString hour ++ " * * 0"

structure AutomationTrigger where
  type : String
  cron : Option String
  frequency : Option String
  day_of_week : Option Nat
  hour : Nat
  minute : Nat
deriving DecidableEq, Repr

structure AutomationAction where
  type : String
  vendors : Option (List String)
  table_id : Option String
  alert_threshold : Option ℚ
deriving DecidableEq, Repr

structure AutomationConfig where
  name : String
  description : Option String
  trigger : AutomationTrigger
  actions : List AutomationAction
  vendors : List String
deriving DecidableEq, Repr

def mkAction (ty : String) : AutomationAction :=
  { type := ty, vendors := none, table_id := none, alert_threshold := none }

/-- Embeds `parse_automation_request`: the full parsing pipeline. -/
def parse_automation_request (text : String) : Option AutomationConfig :=
  if !detect_automation_intent text then none
  else
    let vendors := extract_vendors text
    let fd := extract_frequency text
    let hour := extract_hour text
    let cron := buildCron fd.1 fd.2 hour
    let trigger : AutomationTrigger :=
      { type := "schedule", cron := some cron, frequency := some fd.1,
        day_of_week := fd.2, hour := hour, minute := 0 }
    let baseActions :=
      [{ mkAction "search_invoices" with vendors := some vendors },
       mkAction "extract_amounts",
       mkAction "update_table"]
    let actions :=
      if reSearch alertPattern (pyLower text).data then
        baseActions ++ [{ mkAction "send_alert" with alert_threshold := searchThreshold text.data }]
      else baseActions
    some { name := extract_automation_name text vendors,
           description := some (text.take 200),
           trigger := trigger, actions := actions, vendors := vendors }

/-! ### `tables.py` — the table store -/

/-- A Python value stored in a row payload. `bool` is kept apart from `num`,
but counts as a number for `isinstance(x, (int, float))`, as in Python. -/
inductive Value where
  | num (q : ℚ)
  | bool (b : Bool)
  | str (s : String)
  | null
deriving DecidableEq, Repr

/-- Python `isinstance(v, (int, float))`. -/
def Value.pyIsNumber : Value → Bool
  | .num _ => true
  | .bool _ => true
  | _ => false

/-- The numeric reading of a value (Python `bool` is 0/1 as an int). -/
def Value.toQ : Value → ℚ
  | .num q => q
  | .bool b => if b then 1 else 0
  | _ => 0

/-- Python `dict.get` on an insertion-ordered payload. -/
def dictGet (d : List (String × Value)) (k : String) : Option Value :=
  (d.find? (fun kv => kv.1 = k)).map (fun kv => kv.2)

structure TableRow where
  id : String
  data : List (String × Value)
  created_at : Nat
  source_email_id : Option Value
  source_automation_id : Option String
deriving DecidableEq, Repr

structure TableDoc where
  id : String
  user_id : String
  name : String
  rows : List TableRow
  year : Nat
  updated_at : Nat
  automation_id : Option String
  total_amount : ℚ
deriving DecidableEq, Repr

/-- Mongo `update_one`: rewrite the first document matching the filter. -/
def updateFirst {α : Type} (p : α → Bool) (f : α → α) : List α → List α
  | [] => []
  | x :: xs => if p x then f x :: xs else x :: updateFirst p f xs

/-- The `$inc` computed for the running total: the value of a present numeric
`montant` field, else nothing. -/
def montantInc (data : List (String × Value)) : Option ℚ :=
  match dictGet data "montant" with
  | some v => if v.pyIsNumber then some v.toQ else none
  | none => none

/-- The contribution of one payload to the running total. -/
def montantDelta (data : List (String × Value)) : ℚ :=
  match montantInc data with
  | some q => q
  | none => 0

/-- Embeds `TableManager.add_row`: push one row and `$inc` the total in the same
`update_one`. -/
def add_row (tables : List TableDoc) (table_id : String) (data : List (String × Value))
    (source_email_id : Option String) (source_automation_id : Option String)
    (row_id : String) (now : Nat) : List TableDoc × String :=
  let row : TableRow :=
    { id := row_id, data := data, created_at := now,
      source_email_id := source_email_id.map .str,
      source_automation_id := source_automation_id }
  (updateFirst (fun t => t.id = table_id)
    (fun t =>
      { t with rows := t.rows ++ [row], updated_at := now,
               total_amount := match montantInc data with
                               | some q => t.total_amount + q
                               | none => t.total_amount }) tables,
   row_id)

/-- The row documents built by the loop of `add_rows_bulk`, one per payload in
order, each with a fresh id and `source_email_id := data.get("email_id")`. -/
def mkBulkRows (freshId : Nat → String) (source_automation_id : Option String) (now : Nat) :
    Nat → List (List (String × Value)) → List TableRow
  | _, [] => []
  | i, d :: ds =>
    { id := freshId i, data := d, created_at := now,
      source_email_id := dictGet d "email_id",
      source_automation_id := source_automation_id } :: mkBulkRows freshId source_automation_id now (i + 1) ds

/-- Embeds `TableManager.add_rows_bulk`: one `update_one` pushing the whole
batch and `$inc`-ing the total by the batch's numeric `montant` sum; skipped
entirely for an empty batch; returns `len(rows)`. -/
def add_rows_bulk (tables : List TableDoc) (table_id : String)
    (rows_data : List (List (String × Value))) (source_automation_id : Option String)
    (freshId : Nat → String) (now : Nat) : List TableDoc × Nat :=
  let rows : List TableRow := mkBulkRows freshId source_automation_id now 0 rows_data
  let total : ℚ := (rows_data.map montantDelta).sum
  if rows.isEmpty then (tables, rows.length)
  else
    (updateFirst (fun t => t.id = table_id)
      (fun t => { t with rows := t.rows ++ rows, updated_at := now,
                         total_amount := t.total_amount + total }) tables,
     rows.length)

/-- Embeds `TableManager.check_duplicate`: does the table hold a row whose
`source_email_id` equals this email id? -/
def check_duplicate (tables : List TableDoc) (table_id : String) (email_id : String) : Bool :=
  tables.any (fun t => t.id = table_id && t.rows.any (fun r => r.source_email_id = some (.str email_id)))

/-- Embeds `TableManager.delete_row`: `$pull` the row and `$set updated_at` — the
running total is not touched. The boolean models `modified_count > 0`
(`updated_at` always changes when a document matches). -/
def delete_row (tables : List TableDoc) (table_id : String) (row_id : String) (now : Nat) :
    List TableDoc × Bool :=
  (updateFirst (fun t => t.id = table_id)
    (fun t => { t with rows := t.rows.filter (fun r => r.id ≠ row_id), updated_at := now }) tables,
   tables.any (fun t => t.id = table_id))

/-- Sum of the numeric `montant` fields across a table's rows. -/
def rowsMontantSum (rows : List TableRow) : ℚ :=
  (rows.map (fun r => montantDelta r.data)).sum

/-- The running-total invariant of the spec. -/
def totalsOk (t : TableDoc) : Prop := t.total_amount = rowsMontantSum t.rows

/-! ### `engine.py` — data model and execution -/

structure EmailMsg where
  id : String
  date : String
deriving DecidableEq, Repr

structure Attachment where
  filename : String
  mimeType : String
  attachmentId : String
deriving DecidableEq, Repr

structure FullEmail where
  attachments : List Attachment
deriving DecidableEq, Repr

structure InvoiceTotal where
  value : ℚ
deriving DecidableEq, Repr

structure InvoiceData where
  total : Option InvoiceTotal
  invoice_number : String
deriving DecidableEq, Repr

/-- The external email gateway (`EmailService`); a `.error` models a raised
exception. -/
structure Gateway where
  search_emails : String → String → Except String (List EmailMsg)
  get_email_by_id : String → String → Except String FullEmail
  extract_invoice_data : String → String → String → Except String InvoiceData

/-- Ambient effects: the operation's timestamp, date formatting
(`strftime "%Y/%m/%d"`) and fresh `ObjectId` generation. -/
structure Env where
  now : Nat
  fmtDate : Nat → String
  freshId : Nat → String

structure AutomationDoc where
  id : String
  user_id : String
  account_id : String
  name : String
  trigger_cron : Option String
  vendors : List String
  table_id : Option String
  status : String
  last_run : Option Nat
  next_run : Option Nat
  run_count : Nat
  last_error : Option String
deriving DecidableEq, Repr

structure ExecResult where
  emails_processed : Nat
  invoices_found : Nat
  rows_added : Nat
  invoices : List (List (String × Value))
deriving DecidableEq, Repr

structure RunDoc where
  id : String
  automation_id : String
  user_id : String
  started_at : Nat
  completed_at : Option Nat
  status : String
  results : Option ExecResult
  emails_processed : Nat
  rows_added : Nat
  error : Option String
deriving DecidableEq, Repr

structure LearnedSender where
  user_id : String
  name : String
  emails : List String
deriving DecidableEq, Repr

structure Db where
  automations : List AutomationDoc
  automation_runs : List RunDoc
  tables : List TableDoc
  learned_senders : List LearnedSender
deriving DecidableEq, Repr

def default_mappings : List (String × List String) := [
  ("distram", ["facturation@distram.com"]),
  ("promocash", ["no-reply@promocash.com"]),
  ("metro", ["factures@metro.fr"]),
  ("khadispal", ["khadispal"]),
  ("orcun", ["orcun"])]

/-- Embeds `AutomationEngine._get_vendor_emails`. The `find_one` filter uses a
case-insensitive `$regex: vendor` on `name`; vendor keys are plain words, so
this is a case-insensitive substring test. -/
def get_vendor_emails (db : Db) (user_id vendor : String) : List String :=
  match db.learned_senders.find? (fun s =>
      s.user_id = user_id && pyContains (pyLower s.name) (pyLower vendor)) with
  | some s => s.emails
  | none => (lookupStr default_mappings (pyLower vendor)).getD [vendor]

/-- Python truthiness of an optional string field. -/
def optStrTruthy : Option String → Bool
  | some s => s ≠ ""
  | none => false

def skipAttachment (att : Attachment) : Bool :=
  let filename := pyLower att.filename
  pyContains filename "cgv" || pyContains filename "condition"

def isPdf (att : Attachment) : Bool :=
  att.mimeType = "application/pdf" || (pyLower att.filename).endsWith ".pdf"

/-- The row payload built for an accepted invoice. -/
def rowFor (vendor : String) (email : EmailMsg) (inv : InvoiceData) (tot : InvoiceTotal) :
    List (String × Value) :=
  [("date", .str email.date), ("fournisseur", .str (pyTitle vendor)),
   ("montant", .num tot.value), ("n_facture", .str inv.invoice_number),
   ("email_id", .str email.id), ("payee", .bool false)]

/-- The attachment loop of `_execute_actions`: skip terms-and-conditions
files, extract from the first PDF-like attachment with a truthy `total`
(one invoice per email); an extraction exception aborts the whole per-email
block, yielding no row. -/
def scanAttachments (gw : Gateway) (account_id vendor : String) (email : EmailMsg) :
    List Attachment → Option (List (String × Value))
  | [] => none
  | att :: rest =>
    if skipAttachment att then scanAttachments gw account_id vendor email rest
    else if isPdf att then
      match gw.extract_invoice_data account_id email.id att.attachmentId with
      | .error _ => none
      | .ok inv =>
        match inv.total with
        | some tot => some (rowFor vendor email inv tot)
        | none => scanAttachments gw account_id vendor email rest
    else scanAttachments gw account_id vendor email rest

/-- The inner per-email `try` block: fetch the full message and scan its
attachments; any exception is caught and yields no row. -/
def processEmail (gw : Gateway) (account_id vendor : String) (email : EmailMsg) :
    Option (List (String × Value)) :=
  match gw.get_email_by_id account_id email.id with
  | .error _ => none
  | .ok full => scanAttachments gw account_id vendor email full.attachments

/-- One iteration of the message loop: every message counts towards
`emails_processed`, duplicates (by `check_duplicate` against the persisted
table) are skipped before the per-email block. -/
def processStep (tables : List TableDoc) (table_id : Option String) (gw : Gateway)
    (account_id vendor : String) (st : Nat × List (List (String × Value)))
    (email : EmailMsg) : Nat × List (List (String × Value)) :=
  if optStrTruthy table_id && check_duplicate tables (table_id.getD "") email.id then
    (st.1 + 1, st.2)
  else
    match processEmail gw account_id vendor email with
    | some row => (st.1 + 1, st.2 ++ [row])
    | none => (st.1 + 1, st.2)

/-- Folding one successful search's messages into the run accumulator
`(emails_processed, all_invoices)`. -/
def processSearch (tables : List TableDoc) (table_id : Option String) (gw : Gateway)
    (account_id vendor : String) (emails : List EmailMsg)
    (st : Nat × List (List (String × Value))) : Nat × List (List (String × Value)) :=
  emails.foldl (processStep tables table_id gw account_id vendor) st

/-- The `(vendor, query)` pairs searched by one run: every resolved address of
every vendor, with the 7-day lookback date filter. -/
def vendorQueries (db : Db) (env : Env) (auto : AutomationDoc) : List (String × String) :=
  let date_filter := "after:" ++ env.fmtDate (env.now - 7 * 86400)
  (auto.vendors.map (fun v =>
    (get_vendor_emails db auto.user_id v).map (fun e =>
      (v, date_filter ++ " from:" ++ e ++ " subject:facture")))).flatten

/-- One iteration of the per-address search loop: a failed search is caught
and contributes nothing. -/
def collectStep (gw : Gateway) (tables : List TableDoc) (table_id : Option String)
    (account_id : String) (st : Nat × List (List (String × Value)))
    (vq : String × String) : Nat × List (List (String × Value)) :=
  match gw.search_emails account_id vq.2 with
  | .error _ => st
  | .ok emails => processSearch tables table_id gw account_id vq.1 emails st

/-- Accumulation of the search/dedup/extract loop of `_execute_actions`: the
final `(emails_processed, all_invoices)` pair. -/
def collectState (gw : Gateway) (env : Env) (db : Db) (auto : AutomationDoc) :
    Nat × List (List (String × Value)) :=
  (vendorQueries db env auto).foldl (collectStep gw db.tables auto.table_id auto.account_id)
    (0, [])

/-- Embeds `AutomationEngine._execute_actions`: search per vendor address (a failed
search is caught and contributes nothing), dedup and extract per message, then
one bulk insert of the collected rows. -/
def execute_actions (gw : Gateway) (env : Env) (db : Db) (auto : AutomationDoc) :
    Db × ExecResult :=
  let st := collectState gw env db auto
  let all_invoices := st.2
  let rowsRes :=
    if optStrTruthy auto.table_id && !all_invoices.isEmpty then
      add_rows_bulk db.tables (auto.table_id.getD "") all_invoices (some auto.id)
        (fun i => env.freshId (i + 1)) env.now
    else (db.tables, 0)
  ({ db with tables := rowsRes.1 },
   { emails_processed := st.1, invoices_found := all_invoices.length,
     rows_added := rowsRes.2, invoices := all_invoices })

/-- The result dict of `run_automation`: success with run id and results, or
an explicit failure. -/
inductive RunOutcome where
  | ok (run_id : String) (res : ExecResult)
  | err (msg : String)
deriving DecidableEq, Repr

def initRunDoc (env : Env) (auto : AutomationDoc) (automation_id : String) : RunDoc :=
  { id := env.freshId 0, automation_id := automation_id, user_id := auto.user_id,
    started_at := env.now, completed_at := none, status := "running",
    results := none, emails_processed := 0, rows_added := 0, error := none }

/-- Embeds `AutomationEngine.run_automation`, parameterised by the action executor
(the body of the `try`); `.error` models an exception escaping the pipeline. -/
def run_automation_with (exec : Db → AutomationDoc → Except String (Db × ExecResult))
    (env : Env) (db : Db) (automation_id : String) : Db × RunOutcome :=
  match db.automations.find? (fun a => a.id = automation_id) with
  | none => (db, .err "Automation not found")
  | some auto =>
    let runDoc := initRunDoc env auto automation_id
    let db1 : Db := { db with automation_runs := db.automation_runs ++ [runDoc] }
    match exec db1 auto with
    | .ok (db2, res) =>
      let doneRun : RunDoc → RunDoc := fun r =>
        { r with completed_at := some env.now, status := "success",
                 results := some res, emails_processed := res.emails_processed,
                 rows_added := res.rows_added }
      let doneAuto : AutomationDoc → AutomationDoc := fun a =>
        { a with last_run := some env.now, last_error := none,
                 run_count := a.run_count + 1 }
      let runs3 := updateFirst (fun r => r.id = runDoc.id) doneRun db2.automation_runs
      let autos3 := updateFirst (fun a => a.id = automation_id) doneAuto db2.automations
      ({ db2 with automation_runs := runs3, automations := autos3 }, .ok runDoc.id res)
    | .error msg =>
      let failRun : RunDoc → RunDoc := fun r =>
        { r with completed_at := some env.now, status := "error", error := some msg }
      let failAuto : AutomationDoc → AutomationDoc := fun a =>
        { a with last_run := some env.now, last_error := some msg }
      let runs3 := updateFirst (fun r => r.id = runDoc.id) failRun db1.automation_runs
      let autos3 := updateFirst (fun a => a.id = automation_id) failAuto db1.automations
      ({ db1 with automation_runs := runs3, automations := autos3 }, .err msg)

/-- The real executor: `_execute_actions` never raises in the model (every
fallible gateway call is inside a per-item catch, and store updates are
total). -/
def executor (gw : Gateway) (env : Env) : Db → AutomationDoc → Except String (Db × ExecResult) :=
  fun db auto => .ok (execute_actions gw env db auto)

def run_automation (gw : Gateway) (env : Env) (db : Db) (automation_id : String) :
    Db × RunOutcome :=
  run_automation_with (executor gw env) env db automation_id

/-! ### `scheduler.py` — `schedule_automation`

APScheduler's `CronTrigger` is external: its constructor is modelled by a
`validCron` oracle saying whether building from five field strings succeeds,
and `get_next_fire_time` by a `nextFire` oracle. -/

inductive TriggerSpec where
  | fields (minute hour day month dow : String)
  | defaultMonday
deriving DecidableEq, Repr

structure SchedState where
  hasScheduler : Bool
  jobs : List (String × TriggerSpec)
deriving DecidableEq, Repr

/-- The trigger built by `schedule_automation`: with five or more cron fields
the (external, oracle-modelled) `CronTrigger` constructor is attempted and
`none` models it raising; with fewer the hardcoded Monday-9:00 default is
used. -/
def parseTrigger (validCron : String → String → String → String → String → Bool)
    (cron_expr : String) : Option TriggerSpec :=
  match pySplitWS cron_expr with
  | p0 :: p1 :: p2 :: p3 :: p4 :: _ =>
    if validCron p0 p1 p2 p3 p4 then some (.fields p0 p1 p2 p3 p4) else none
  | _ => some .defaultMonday

/-- Embeds `AutomationScheduler.schedule_automation`. With five or more cron fields
the `CronTrigger` constructor is attempted — if it raises, the enclosing
`except` returns `False` with nothing installed; with fewer than five fields
the hardcoded Monday-9:00 default trigger is used. On success the old job is
replaced and `next_run` persisted. -/
def schedule_automation (validCron : String → String → String → String → String → Bool)
    (nextFire : TriggerSpec → Nat → Option Nat) (st : SchedState) (db : Db)
    (auto : AutomationDoc) (now : Nat) : SchedState × Db × Bool :=
  if !st.hasScheduler then (st, db, false)
  else
    match parseTrigger validCron (auto.trigger_cron.getD "0 9 * * 0") with
    | none => (st, db, false)
    | some trig =>
      let jobs := (st.jobs.filter (fun j => j.1 ≠ auto.id)) ++ [(auto.id, trig)]
      let autos2 := updateFirst (fun a => a.id = auto.id)
        (fun a => { a with next_run := nextFire trig now }) db.automations
      ({ st with jobs := jobs }, { db with automations := autos2 }, true)

/-! ### Derived predicates -/

/-- The spec's running-total invariant over a whole `tables` collection. -/
def allTotalsOk (tables : List TableDoc) : Prop := ∀ t ∈ tables, totalsOk t

/-- No two rows of the table share a non-null source message id. -/
def noDupSrc (t : TableDoc) : Prop :=
  (t.rows.filterMap (fun r => r.source_email_id)).Nodup

def allNoDupSrc (tables : List TableDoc) : Prop := ∀ t ∈ tables, noDupSrc t

/-- A collected payload that passed the dedup gate: it carries a source
message id that is not yet present in the target table. -/
def goodRow (tables : List TableDoc) (tid : Option String) (d : List (String × Value)) : Prop :=
  ∃ m : String, dictGet d "email_id" = some (.str m) ∧
    (optStrTruthy tid = true → check_duplicate tables (tid.getD "") m = false)

/-- Number of messages one search contributes: zero when the search raises. -/
def searchLen (gw : Gateway) (account_id : String) (vq : String × String) : Nat :=
  match gw.search_emails account_id vq.2 with
  | .error _ => 0
  | .ok emails => emails.length

/-- Total number of messages returned by the successful searches of one run
(failed searches contribute nothing). -/
def searchCount (gw : Gateway) (env : Env) (db : Db) (auto : AutomationDoc) : Nat :=
  (vendorQueries db env auto).foldl (fun n vq => n + searchLen gw auto.account_id vq) 0

/-- Index of the first occurrence of a character pattern in a text. -/
def firstIdx (n : List Char) : List Char → Option Nat
  | [] => if n.isEmpty then some 0 else none
  | c :: t => if n.isPrefixOf (c :: t) then some 0 else (firstIdx n t).map (fun i => i + 1)

/-- Model of APScheduler's `CronTrigger` constructor on one field string:
a star or an in-range numeral is accepted, anything else raises. -/
def cronFieldOk (lo hi : Nat) (s : String) : Bool :=
  s = "*" ||
    (!s.data.isEmpty && s.data.all Char.isDigit &&
      (lo ≤ natFromDigits s.data && natFromDigits s.data ≤ hi))

/-- Model of APScheduler's `CronTrigger(minute, hour, day, month, day_of_week)`
constructor succeeding. -/
def cronFieldsOk (m h d mo dw : String) : Bool :=
  cronFieldOk 0 59 m && cronFieldOk 0 23 h && cronFieldOk 1 31 d &&
  cronFieldOk 1 12 mo && cronFieldOk 0 6 dw

/-! ### Concrete fixtures used by witnesses and counterexamples -/

def mkPlainRow (rid : String) (data : List (String × Value)) : TableRow :=
  { id := rid, data := data, created_at := 0, source_email_id := none,
    source_automation_id := none }

def cxTable : TableDoc :=
  { id := "t1", user_id := "u1", name := "Factures 2025",
    rows := [mkPlainRow "r1" [("montant", .num 5)]],
    year := 2025, updated_at := 0, automation_id := none, total_amount := 5 }

def emptyDb : Db :=
  { automations := [], automation_runs := [], tables := [], learned_senders := [] }

def nullGateway : Gateway :=
  { search_emails := fun _ _ => .ok [],
    get_email_by_id := fun _ _ => .ok { attachments := [] },
    extract_invoice_data := fun _ _ _ => .ok { total := none, invoice_number := "" } }

def env0 : Env :=
  { now := 1209600, fmtDate := fun n => toString n,
    freshId := fun n => "id" ++ toString n }

def mkAutoDoc (aid uid acct : String) (cron : Option String) (vendors : List String)
    (tid : Option String) : AutomationDoc :=
  { id := aid, user_id := uid, account_id := acct, name := "A", trigger_cron := cron,
    vendors := vendors, table_id := tid, status := "active", last_run := none,
    next_run := none, run_count := 0, last_error := none }

def table7 : TableDoc :=
  { id := "t7", user_id := "u7", name := "T7", rows := [], year := 2025,
    updated_at := 0, automation_id := some "a7", total_amount := 0 }

def auto7 : AutomationDoc :=
  mkAutoDoc "a7" "u7" "acct7" (some "0 9 * * 0") ["alpha", "beta", "gamma"] (some "t7")

def db7 : Db :=
  { automations := [auto7], automation_runs := [], tables := [table7],
    learned_senders := [] }

def query7 (v : String) : String := "after:604800 from:" ++ v ++ " subject:facture"

def msgA : EmailMsg := { id := "mA", date := "2025-01-02" }

def msgG : EmailMsg := { id := "mG", date := "2025-01-03" }

def pdfAtt : Attachment :=
  { filename := "facture.pdf", mimeType := "application/pdf", attachmentId := "att1" }

/-- Gateway for the three-vendor scenario: the second vendor's search raises,
the first and third each return one invoice-bearing message. -/
def gw7 : Gateway :=
  { search_emails := fun _ q =>
      if q = query7 "alpha" then .ok [msgA]
      else if q = query7 "beta" then .error "search down"
      else if q = query7 "gamma" then .ok [msgG]
      else .ok [],
    get_email_by_id := fun _ _ => .ok { attachments := [pdfAtt] },
    extract_invoice_data := fun _ mid _ =>
      if mid = "mA" then .ok { total := some { value := 100 }, invoice_number := "FA" }
      else .ok { total := some { value := 200 }, invoice_number := "FG" } }

def res7 : ExecResult :=
  { emails_processed := 2, invoices_found := 2, rows_added := 2,
    invoices :=
      [rowFor "alpha" msgA { total := some { value := 100 }, invoice_number := "FA" } { value := 100 },
       rowFor "gamma" msgG { total := some { value := 200 }, invoice_number := "FG" } { value := 200 }] }

def table2 : TableDoc :=
  { id := "t2", user_id := "u2", name := "T2", rows := [], year := 2025,
    updated_at := 0, automation_id := some "a2", total_amount := 0 }

def auto2 : AutomationDoc := mkAutoDoc "a2" "u2" "acc2" (some "0 9 * * 0") ["vend"] (some "t2")

/-- A learned sender whose `emails` list holds the same address twice, so one
run searches the same query twice. -/
def sender2 : LearnedSender :=
  { user_id := "u2", name := "vend", emails := ["dup@x.com", "dup@x.com"] }

def db2 : Db :=
  { automations := [auto2], automation_runs := [], tables := [table2],
    learned_senders := [sender2] }

def msgD : EmailMsg := { id := "mD", date := "2025-02-02" }

def gw2 : Gateway :=
  { search_emails := fun _ _ => .ok [msgD],
    get_email_by_id := fun _ _ => .ok { attachments := [pdfAtt] },
    extract_invoice_data := fun _ _ _ =>
      .ok { total := some { value := 10 }, invoice_number := "FD" } }

def db3 : Db :=
  { automations := [auto7], automation_runs := [], tables := [], learned_senders := [] }

def st8 : SchedState := { hasScheduler := true, jobs := [] }

/-- Five well-formed-looking cron fields with an out-of-range minute: the
`CronTrigger` constructor raises on it. -/
def autoBad8 : AutomationDoc := mkAutoDoc "a8" "u8" "acc8" (some "61 9 * * 0") [] none

def autoShort8 : AutomationDoc := mkAutoDoc "a9" "u8" "acc8" (some "garbage") [] none

def db8 : Db :=
  { automations := [autoBad8, autoShort8], automation_runs := [], tables := [],
    learned_senders := [] }

def nf0 : TriggerSpec → Nat → Option Nat := fun _ _ => some 0

/-- The first C6 test input, `rappelle-moi d'appeler Jean` (the apostrophe is
assembled from its code point). -/
def c6Text1 : String := "rappelle-moi d" ++ String.mk [Char.ofNat 39] ++ "appeler Jean"

def c6Text2 : String := "chaque lundi à 9h récupère les factures de Distram"

def c9Text : String := "factures metro et distram"

def c9AccentText : String := "facture distràm"

/-! ## Generic lemmas about the document-store primitives -/

theorem updateFirst_eq_of_none {α : Type} (p : α → Bool) (f : α → α) :
    ∀ l : List α, (∀ x ∈ l, p x = false) → updateFirst p f l = l := by
  intro l
  induction l with
  | nil => intro _; rfl
  | cons x xs ih =>
    intro h
    have hx : p x = false := h x (List.mem_cons_self x xs)
    simp only [updateFirst]
    rw [if_neg (by simp [hx]), ih (fun y hy => h y (List.mem_cons_of_mem _ hy))]

theorem mem_updateFirst {α : Type} (p : α → Bool) (f : α → α) :
    ∀ (l : List α) (x : α), x ∈ updateFirst p f l →
      x ∈ l ∨ ∃ y, y ∈ l ∧ p y = true ∧ x = f y := by
  intro l
  induction l with
  | nil => intro x hx; simp [updateFirst] at hx
  | cons a as ih =>
    intro x hx
    by_cases ha : p a = true
    · rw [updateFirst, if_pos ha] at hx
      rcases List.mem_cons.mp hx with h | h
      · exact Or.inr ⟨a, List.mem_cons_self a as, ha, h⟩
      · exact Or.inl (List.mem_cons_of_mem _ h)
    · rw [updateFirst, if_neg ha] at hx
      rcases List.mem_cons.mp hx with h | h
      · exact Or.inl (by simp [h])
      · rcases ih x h with h1 | ⟨y, hy, hpy, hxy⟩
        · exact Or.inl (List.mem_cons_of_mem _ h1)
        · exact Or.inr ⟨y, List.mem_cons_of_mem _ hy, hpy, hxy⟩

theorem find?_updateFirst {α : Type} (p : α → Bool) (f : α → α)
    (hf : ∀ a, p a = true → p (f a) = true) :
    ∀ l : List α, (updateFirst p f l).find? p = (l.find? p).map f := by
  intro l
  induction l with
  | nil => rfl
  | cons a as ih =>
    by_cases ha : p a = true
    · rw [updateFirst, if_pos ha, List.find?_cons_of_pos _ (hf a ha),
          List.find?_cons_of_pos _ ha]
      rfl
    · rw [updateFirst, if_neg ha, List.find?_cons_of_neg _ ha,
          List.find?_cons_of_neg _ ha, ih]

theorem updateFirst_append_of_none {α : Type} (p : α → Bool) (f : α → α) :
    ∀ l1 l2 : List α, (∀ x ∈ l1, p x = false) →
      updateFirst p f (l1 ++ l2) = l1 ++ updateFirst p f l2 := by
  intro l1 l2
  induction l1 with
  | nil => intro _; rfl
  | cons a as ih =>
    intro h
    have ha : p a = false := h a (List.mem_cons_self a as)
    simp only [List.cons_append, updateFirst]
    rw [if_neg (by simp [ha])]
    exact congrArg (fun l => a :: l) (ih (fun y hy => h y (List.mem_cons_of_mem _ hy)))

theorem find?_append_of_none {α : Type} (p : α → Bool) :
    ∀ l1 l2 : List α, (∀ x ∈ l1, p x = false) →
      (l1 ++ l2).find? p = l2.find? p := by
  intro l1 l2
  induction l1 with
  | nil => intro _; rfl
  | cons a as ih =>
    intro h
    have ha : p a = false := h a (List.mem_cons_self a as)
    rw [List.cons_append, List.find?_cons_of_neg _ (by simp [ha]),
        ih (fun y hy => h y (List.mem_cons_of_mem _ hy))]

theorem mkBulkRows_length (fid : Nat → String) (said : Option String) (now : Nat) :
    ∀ (i : Nat) (ds : List (List (String × Value))),
      (mkBulkRows fid said now i ds).length = ds.length := by
  intro i ds
  induction ds generalizing i with
  | nil => rfl
  | cons d ds ih => simp [mkBulkRows, ih]

/-! ## C5 — cron derivation -/

/-- C5: the cron expression is derived deterministically from
`(frequency, dayOfWeek, hour)`: daily gives `0 H * * *`, weekly gives
`0 H * * D` with `D` defaulting to 0 when no day was extracted, monthly gives
`0 H 1 * *`, any unrecognized frequency falls back to `0 H * * 0`; in
particular weekly/3/14 gives `0 14 * * 3` and monthly/9 gives `0 9 1 * *`. -/
theorem c5_cron_derivation :
    (∀ (h : Nat) (d : Option Nat), buildCron "daily" d h = "0 " ++ toString h ++ " * * *") ∧
    (∀ (h d : Nat), buildCron "weekly" (some d) h = "0 " ++ toString h ++ " * * " ++ toString d) ∧
    (∀ h : Nat, buildCron "weekly" none h = buildCron "weekly" (some 0) h) ∧
    (∀ (h : Nat) (d : Option Nat), buildCron "monthly" d h = "0 " ++ toString h ++ " 1 * *") ∧
    (∀ (f : String) (d : Option Nat) (h : Nat), f ≠ "daily" → f ≠ "weekly" → f ≠ "monthly" →
      buildCron f d h = "0 " ++ toString h ++ " * * 0") ∧
    buildCron "weekly" (some 3) 14 = "0 14 * * 3" ∧
    buildCron "monthly" none 9 = "0 9 1 * *" := by
  refine ⟨fun h d => rfl, fun h d => rfl, fun h => rfl, fun h d => rfl,
          fun f d h h1 h2 h3 => ?_, rfl, rfl⟩
  simp [buildCron, h1, h2, h3]

/-- Witness for C5: the fallback branch at a concrete unrecognized frequency. -/
theorem c5_witness : buildCron "yearly" none 7 = "0 7 * * 0" :=
  c5_cron_derivation.2.2.2.2.1 "yearly" none 7 (by decide) (by decide) (by decide)

/-! ## C6 — intent-gate precision -/

/-- C6: `parse("rappelle-moi d'appeler Jean")` is `None` (no automation
intent), and `parse("chaque lundi à 9h récupère les factures de Distram")` is
a config with `vendors=["distram"]`, `trigger.day_of_week=0`,
`trigger.hour=9`. -/
theorem c6_intent_gate :
    parse_automation_request c6Text1 = none ∧
    (parse_automation_request c6Text2).map
      (fun c => (c.vendors, c.trigger.day_of_week, c.trigger.hour)) =
      some (["distram"], some 0, 9) :=
  ⟨rfl, rfl⟩

/-! ## C10 — bulk-insert return value -/

/-- C10: `add_rows_bulk` returns `len(rows_data)` with no table-existence
check — the count is returned even when no table matches `table_id` and the
collection is left unchanged — and an empty batch performs no write at all. -/
theorem c10_bulk_count :
    ∀ (tables : List TableDoc) (tid : String) (rows_data : List (List (String × Value)))
      (said : Option String) (fid : Nat → String) (now : Nat),
    (add_rows_bulk tables tid rows_data said fid now).2 = rows_data.length ∧
    (rows_data = [] → (add_rows_bulk tables tid rows_data said fid now).1 = tables) ∧
    ((∀ t ∈ tables, t.id ≠ tid) → (add_rows_bulk tables tid rows_data said fid now).1 = tables) := by
  intro tables tid rows_data said fid now
  refine ⟨?_, ?_, ?_⟩
  · simp only [add_rows_bulk]
    split
    · exact mkBulkRows_length fid said now 0 rows_data
    · exact mkBulkRows_length fid said now 0 rows_data
  · intro h; subst h; rfl
  · intro h
    simp only [add_rows_bulk]
    split
    · rfl
    · exact updateFirst_eq_of_none _ _ tables (fun t ht => decide_eq_false (h t ht))

/-- Witness for C10: a batch aimed at a table id that exists nowhere leaves
the collection unchanged (while still returning the batch length). -/
theorem c10_witness :
    (add_rows_bulk [cxTable] "zz" [[("montant", Value.num 3)]] (some "a")
      (fun i => toString i) 7).1 = [cxTable] :=
  (c10_bulk_count [cxTable] "zz" [[("montant", Value.num 3)]] (some "a")
    (fun i => toString i) 7).2.2 (by decide)

/-! ## C4 — not-found run is an explicit failure with no run record -/

/-- C4: when no automation document matches the id, `run_automation` returns
the explicit failure result with error message `Automation not found` and the
whole store — in particular the run-history collection — is unchanged. -/
theorem c4_not_found :
    ∀ (gw : Gateway) (env : Env) (db : Db) (aid : String),
    db.automations.find? (fun a => a.id = aid) = none →
    run_automation gw env db aid = (db, RunOutcome.err "Automation not found") := by
  intro gw env db aid h
  unfold run_automation run_automation_with
  rw [h]

/-- Witness for C4: running a missing id on an empty store. -/
theorem c4_witness :
    run_automation nullGateway env0 emptyDb "missing" =
      (emptyDb, RunOutcome.err "Automation not found") :=
  c4_not_found nullGateway env0 emptyDb "missing" rfl

/-! ## C1 — running-total consistency -/

theorem rowsMontantSum_nil : rowsMontantSum [] = 0 := rfl

theorem rowsMontantSum_cons (x : TableRow) (xs : List TableRow) :
    rowsMontantSum (x :: xs) = montantDelta x.data + rowsMontantSum xs := rfl

theorem rowsMontantSum_append (a b : List TableRow) :
    rowsMontantSum (a ++ b) = rowsMontantSum a + rowsMontantSum b := by
  simp [rowsMontantSum, List.map_append, List.sum_append]

theorem mkBulkRows_montantSum (fid : Nat → String) (said : Option String) (now : Nat) :
    ∀ (i : Nat) (ds : List (List (String × Value))),
      rowsMontantSum (mkBulkRows fid said now i ds) = (ds.map montantDelta).sum := by
  intro i ds
  induction ds generalizing i with
  | nil => rfl
  | cons d ds ih =>
    simp only [mkBulkRows, rowsMontantSum_cons, List.map_cons, List.sum_cons, ih]

/-- C1 (amended): the running total always equals the sum of the numeric
`montant` fields after `add_row` and after `add_rows_bulk` — each adjusts the
total in the same `update_one` as the row change — while `delete_row` (see the
counterexample) pulls the row without touching the total. -/
theorem c1_total_consistency :
    (∀ (tables : List TableDoc) (tid : String) (data : List (String × Value))
       (sei sai : Option String) (rid : String) (now : Nat),
       allTotalsOk tables → allTotalsOk (add_row tables tid data sei sai rid now).1) ∧
    (∀ (tables : List TableDoc) (tid : String) (rows_data : List (List (String × Value)))
       (said : Option String) (fid : Nat → String) (now : Nat),
       allTotalsOk tables → allTotalsOk (add_rows_bulk tables tid rows_data said fid now).1) := by
  constructor
  · intro tables tid data sei sai rid now h t ht
    rcases mem_updateFirst _ _ tables t ht with h1 | ⟨y, hy, _, hxy⟩
    · exact h t h1
    · subst hxy
      have hyt : y.total_amount = rowsMontantSum y.rows := h y hy
      show _ = rowsMontantSum (y.rows ++ [_])
      rw [rowsMontantSum_append, rowsMontantSum_cons]
      cases hmi : montantInc data with
      | none => simp [hmi, hyt, montantDelta, rowsMontantSum_nil]
      | some q => simp [hmi, hyt, montantDelta, rowsMontantSum_nil]
  · intro tables tid rows_data said fid now h
    simp only [add_rows_bulk]
    split
    · exact h
    · intro t ht
      rcases mem_updateFirst _ _ tables t ht with h1 | ⟨y, hy, _, hxy⟩
      · exact h t h1
      · subst hxy
        have hyt : y.total_amount = rowsMontantSum y.rows := h y hy
        show _ = rowsMontantSum (y.rows ++ _)
        rw [rowsMontantSum_append, mkBulkRows_montantSum, hyt]

/-- Counterexample to C1 as stated: a table satisfying the invariant stops
satisfying it after `delete_row` removes its only row (montant 5), because
`delete_row` pulls the row without adjusting `total_amount`. -/
theorem c1_counterexample :
    totalsOk cxTable ∧
    (delete_row [cxTable] "t1" "r1" 1).1 = [{ cxTable with rows := [], updated_at := 1 }] ∧
    ¬ totalsOk { cxTable with rows := [], updated_at := 1 } := by
  refine ⟨?_, ?_, ?_⟩
  · simp [totalsOk, cxTable, mkPlainRow, rowsMontantSum, montantDelta, montantInc,
          dictGet, Value.pyIsNumber, Value.toQ]
  · rfl
  · norm_num [totalsOk, cxTable, rowsMontantSum]

/-- Witness for C1: inserting a montant-3 row into the concrete table keeps
the invariant. -/
theorem c1_witness :
    allTotalsOk (add_row [cxTable] "t1" [("montant", Value.num 3)] none none "r2" 2).1 :=
  c1_total_consistency.1 [cxTable] "t1" [("montant", Value.num 3)] none none "r2" 2
    (by
      intro t ht
      rw [List.mem_singleton] at ht
      subst ht
      simp [totalsOk, cxTable, mkPlainRow, rowsMontantSum, montantDelta, montantInc,
            dictGet, Value.pyIsNumber, Value.toQ])

/-! ## C3 — error path of `run_automation` -/

theorem initRunDoc_id (env : Env) (auto : AutomationDoc) (aid : String) :
    (initRunDoc env auto aid).id = env.freshId 0 := rfl

/-- C3: when the action pipeline raises, the run record is completed with
status `error` and the captured message, the automation's `last_error` is set
to that message and `last_run` to now, while `run_count` and `status` are left
unchanged. -/
theorem c3_error_path :
    ∀ (ex : Db → AutomationDoc → Except String (Db × ExecResult)) (env : Env) (db : Db)
      (aid : String) (auto : AutomationDoc) (msg : String),
    db.automations.find? (fun a => a.id = aid) = some auto →
    ex { db with automation_runs := db.automation_runs ++ [initRunDoc env auto aid] } auto =
      .error msg →
    (∀ r ∈ db.automation_runs, r.id ≠ env.freshId 0) →
    (run_automation_with ex env db aid).2 = .err msg ∧
    (run_automation_with ex env db aid).1.automation_runs.find?
        (fun r => r.id = env.freshId 0) =
      some { initRunDoc env auto aid with
             completed_at := some env.now, status := "error", error := some msg } ∧
    (run_automation_with ex env db aid).1.automations.find? (fun a => a.id = aid) =
      some { auto with last_run := some env.now, last_error := some msg } ∧
    ((run_automation_with ex env db aid).1.automations.find? (fun a => a.id = aid)).map
        (fun a => a.run_count) = some auto.run_count ∧
    ((run_automation_with ex env db aid).1.automations.find? (fun a => a.id = aid)).map
        (fun a => a.status) = some auto.status := by
  intro ex env db aid auto msg hfind hex hfresh
  have hfresh' : ∀ r ∈ db.automation_runs,
      (fun r : RunDoc => decide (r.id = (initRunDoc env auto aid).id)) r = false :=
    fun r hr => decide_eq_false (hfresh r hr)
  have hkey := find?_updateFirst (fun a : AutomationDoc => a.id = aid)
    (fun a => { a with last_run := some env.now, last_error := some msg })
    (fun a h => h) db.automations
  have hauto : (run_automation_with ex env db aid).1.automations.find?
      (fun a => a.id = aid) = some { auto with last_run := some env.now, last_error := some msg } := by
    simp only [run_automation_with, hfind, hex]
    rw [hkey, hfind]
    rfl
  refine ⟨?_, ?_, hauto, ?_, ?_⟩
  · simp only [run_automation_with, hfind, hex]
  · simp only [run_automation_with, hfind, hex]
    rw [updateFirst_append_of_none _ _ _ _ hfresh']
    rw [find?_append_of_none _ _ _ (fun r hr => decide_eq_false (hfresh r hr))]
    simp [updateFirst, initRunDoc_id]
  · rw [hauto]; rfl
  · rw [hauto]; rfl

/-- Witness for C3: a concrete executor raising `boom` on a one-automation
store. -/
theorem c3_witness :
    (run_automation_with (fun _ _ => Except.error "boom") env0 db3 "a7").2 =
      RunOutcome.err "boom" :=
  (c3_error_path (fun _ _ => Except.error "boom") env0 db3 "a7" auto7 "boom"
    rfl rfl (by simp [db3])).1

/-! ## C7 — per-item failure isolation -/

theorem processStep_fst (tables : List TableDoc) (tid : Option String) (gw : Gateway)
    (acct v : String) (st : Nat × List (List (String × Value))) (e : EmailMsg) :
    (processStep tables tid gw acct v st e).1 = st.1 + 1 := by
  unfold processStep
  split
  · rfl
  · split <;> rfl

theorem processSearch_fst (tables : List TableDoc) (tid : Option String) (gw : Gateway)
    (acct v : String) :
    ∀ (emails : List EmailMsg) (st : Nat × List (List (String × Value))),
      (processSearch tables tid gw acct v emails st).1 = st.1 + emails.length := by
  intro emails
  induction emails with
  | nil => intro st; rfl
  | cons e es ih =>
    intro st
    have h := ih (processStep tables tid gw acct v st e)
    simp only [processSearch] at h ⊢
    rw [List.foldl_cons, h, processStep_fst, List.length_cons]
    omega

theorem collectStep_fst (gw : Gateway) (tables : List TableDoc) (tid : Option String)
    (acct : String) (st : Nat × List (List (String × Value))) (vq : String × String) :
    (collectStep gw tables tid acct st vq).1 = st.1 + searchLen gw acct vq := by
  unfold collectStep searchLen
  cases gw.search_emails acct vq.2 with
  | error e => rfl
  | ok emails => exact processSearch_fst tables tid gw acct vq.1 emails st

theorem collect_count (gw : Gateway) (env : Env) (db : Db) (auto : AutomationDoc) :
    (collectState gw env db auto).1 = searchCount gw env db auto := by
  suffices h : ∀ (qs : List (String × String)) (st : Nat × List (List (String × Value))),
      (qs.foldl (collectStep gw db.tables auto.table_id auto.account_id) st).1 =
        qs.foldl (fun n vq => n + searchLen gw auto.account_id vq) st.1 by
    exact h (vendorQueries db env auto) (0, [])
  intro qs
  induction qs with
  | nil => intro st; rfl
  | cons q qs ih =>
    intro st
    simp only [List.foldl_cons]
    rw [ih, collectStep_fst]

/-- C7: failures are isolated per item — a run over an existing automation
always completes with a success outcome, and `emails_processed` counts exactly
the messages returned by the successful searches; in the concrete three-vendor
scenario where the second vendor's search raises, the run still succeeds with
the rows contributed by vendors 1 and 3 and `emails_processed = 2`. -/
theorem c7_partial_failure :
    (∀ (gw : Gateway) (env : Env) (db : Db) (aid : String) (auto : AutomationDoc),
       db.automations.find? (fun a => a.id = aid) = some auto →
       ∃ res, (run_automation gw env db aid).2 = RunOutcome.ok (env.freshId 0) res ∧
         res.emails_processed = searchCount gw env db auto) ∧
    (run_automation gw7 env0 db7 "a7").2 = RunOutcome.ok "id0" res7 := by
  constructor
  · intro gw env db aid auto hfind
    refine ⟨(execute_actions gw env
      { db with automation_runs := db.automation_runs ++ [initRunDoc env auto aid] } auto).2,
      ?_, ?_⟩
    · simp only [run_automation, run_automation_with, executor, hfind]
      rfl
    · show (collectState gw env db auto).1 = _
      exact collect_count gw env db auto
  · rfl

/-- Witness for C7: the three-vendor scenario instantiating the general
success-and-count statement. -/
theorem c7_witness :
    (run_automation gw7 env0 db7 "a7").2 = RunOutcome.ok (env0.freshId 0) res7 ∧
    res7.emails_processed = searchCount gw7 env0 db7 auto7 := by
  obtain ⟨res, h1, h2⟩ := c7_partial_failure.1 gw7 env0 db7 "a7" auto7 rfl
  have h3 := c7_partial_failure.2
  rw [h1] at h3
  injection h3 with _ h4
  subst h4
  exact ⟨h1, h2⟩

/-! ## C8 — cron parse fallback in `schedule_automation` -/

/-- C8 (amended): with the scheduler started, a cron expression with fewer
than five whitespace-separated fields falls back to the hardcoded
Monday-9:00 default trigger and still installs a timer; but a five-field
expression whose `CronTrigger` construction raises makes
`schedule_automation` return `False` with nothing installed and nothing
changed. -/
theorem c8_schedule_fallback :
    (∀ (validCron : String → String → String → String → String → Bool)
       (nextFire : TriggerSpec → Nat → Option Nat) (st : SchedState) (db : Db)
       (auto : AutomationDoc) (now : Nat),
       st.hasScheduler = true →
       (pySplitWS (auto.trigger_cron.getD "0 9 * * 0")).length < 5 →
       (schedule_automation validCron nextFire st db auto now).2.2 = true ∧
       (schedule_automation validCron nextFire st db auto now).1.jobs =
         (st.jobs.filter (fun j => j.1 ≠ auto.id)) ++ [(auto.id, TriggerSpec.defaultMonday)]) ∧
    (∀ (validCron : String → String → String → String → String → Bool)
       (nextFire : TriggerSpec → Nat → Option Nat) (st : SchedState) (db : Db)
       (auto : AutomationDoc) (now : Nat) (p0 p1 p2 p3 p4 : String) (rest : List String),
       st.hasScheduler = true →
       pySplitWS (auto.trigger_cron.getD "0 9 * * 0") = p0 :: p1 :: p2 :: p3 :: p4 :: rest →
       validCron p0 p1 p2 p3 p4 = false →
       schedule_automation validCron nextFire st db auto now = (st, db, false)) := by
  have hshort : ∀ (validCron : String → String → String → String → String → Bool)
      (ce : String), (pySplitWS ce).length < 5 →
      parseTrigger validCron ce = some TriggerSpec.defaultMonday := by
    intro validCron ce h5
    unfold parseTrigger
    split
    · rename_i heq
      rw [heq] at h5
      simp only [List.length_cons] at h5
      omega
    · rfl
  have hbad : ∀ (validCron : String → String → String → String → String → Bool)
      (ce p0 p1 p2 p3 p4 : String) (rest : List String),
      pySplitWS ce = p0 :: p1 :: p2 :: p3 :: p4 :: rest →
      validCron p0 p1 p2 p3 p4 = false →
      parseTrigger validCron ce = none := by
    intro validCron ce p0 p1 p2 p3 p4 rest hsplit hv
    unfold parseTrigger
    rw [hsplit]
    simp [hv]
  constructor
  · intro validCron nextFire st db auto now hs h5
    simp only [schedule_automation, hs, Bool.not_true, Bool.false_eq_true, if_false,
               hshort validCron _ h5]
    constructor <;> first | rfl | trivial
  · intro validCron nextFire st db auto now p0 p1 p2 p3 p4 rest hs hsplit hv
    simp only [schedule_automation, hs, Bool.not_true, Bool.false_eq_true, if_false,
               hbad validCron _ p0 p1 p2 p3 p4 rest hsplit hv]

/-- Counterexample to C8 as stated: the five-field cron `61 9 * * 0` cannot be
parsed into a valid trigger (minute 61 is out of range); `schedule_automation`
catches the constructor error and returns `False` with no timer installed,
instead of falling back to the weekly-Monday default. -/
theorem c8_counterexample :
    schedule_automation cronFieldsOk nf0 st8 db8 autoBad8 99 = (st8, db8, false) ∧
    st8.jobs = [] :=
  ⟨rfl, rfl⟩

/-- Witness for C8: a one-field cron falls back to the default trigger and a
timer is installed. -/
theorem c8_witness :
    (schedule_automation cronFieldsOk nf0 st8 db8 autoShort8 99).2.2 = true ∧
    (schedule_automation cronFieldsOk nf0 st8 db8 autoShort8 99).1.jobs =
      [("a9", TriggerSpec.defaultMonday)] := by
  have h := c8_schedule_fallback.1 cronFieldsOk nf0 st8 db8 autoShort8 99 rfl (by decide)
  exact ⟨h.1, h.2⟩

/-! ## C9 — vendor extraction -/

theorem vendorStep_mem (tl : String) (acc : List String) (kv : String × List String)
    (v : String) :
    v ∈ vendorStep tl acc kv ↔
      v ∈ acc ∨
        (kv.2.any (fun al => subList (pyLower al).data tl.data) = true ∧ v = kv.1) := by
  unfold vendorStep
  by_cases h : kv.2.any (fun al => subList (pyLower al).data tl.data) = true
  · rw [if_pos h]
    by_cases hc : acc.contains kv.1
    · rw [if_pos hc]
      constructor
      · exact fun hv => Or.inl hv
      · rintro (hv | ⟨-, rfl⟩)
        · exact hv
        · exact List.elem_iff.mp hc
    · rw [if_neg hc]
      simp [h, List.mem_append, or_comm, eq_comm]
  · rw [if_neg h]
    simp [h]

theorem vendorFold_mem (tl : String) :
    ∀ (l : List (String × List String)) (acc : List String) (v : String),
      v ∈ l.foldl (vendorStep tl) acc ↔
        v ∈ acc ∨ ∃ aliases, (v, aliases) ∈ l ∧
          aliases.any (fun al => subList (pyLower al).data tl.data) = true := by
  intro l
  induction l with
  | nil => intro acc v; simp
  | cons kv l ih =>
    intro acc v
    rw [List.foldl_cons, ih, vendorStep_mem]
    constructor
    · rintro ((hv | ⟨hany, rfl⟩) | ⟨als, hmem, hany⟩)
      · exact Or.inl hv
      · exact Or.inr ⟨kv.2, by simp, hany⟩
      · exact Or.inr ⟨als, List.mem_cons_of_mem _ hmem, hany⟩
    · rintro (hv | ⟨als, hmem, hany⟩)
      · exact Or.inl (Or.inl hv)
      · rcases List.mem_cons.mp hmem with heq | hmem'
        · rcases kv with ⟨k, as⟩
          rcases Prod.mk.injEq .. ▸ heq with ⟨hk, ha⟩
          subst hk; subst ha
          exact Or.inl (Or.inr ⟨hany, rfl⟩)
        · exact Or.inr ⟨als, hmem', hany⟩

theorem vendorFold_shape (tl : String) :
    ∀ (l : List (String × List String)) (acc : List String),
      ∃ extra, l.foldl (vendorStep tl) acc = acc ++ extra ∧
        List.Sublist extra (l.map Prod.fst) := by
  intro l
  induction l with
  | nil => intro acc; exact ⟨[], by simp, by simp⟩
  | cons kv l ih =>
    intro acc
    rw [List.foldl_cons]
    by_cases h1 : kv.2.any (fun al => subList (pyLower al).data tl.data) = true
    · by_cases h2 : kv.1 ∈ acc
      · have hstep : vendorStep tl acc kv = acc := by simp [vendorStep, h1, h2]
        rw [hstep]
        rcases ih acc with ⟨extra, he, hs⟩
        exact ⟨extra, he, by simpa using hs.cons kv.1⟩
      · have hstep : vendorStep tl acc kv = acc ++ [kv.1] := by simp [vendorStep, h1, h2]
        rw [hstep]
        rcases ih (acc ++ [kv.1]) with ⟨extra, he, hs⟩
        refine ⟨kv.1 :: extra, ?_, ?_⟩
        · rw [he, List.append_assoc]
          rfl
        · simpa using hs.cons₂ kv.1
    · have hstep : vendorStep tl acc kv = acc := by simp [vendorStep, h1]
      rw [hstep]
      rcases ih acc with ⟨extra, he, hs⟩
      exact ⟨extra, he, by simpa using hs.cons kv.1⟩

theorem vendorFold_nodup (tl : String) :
    ∀ (l : List (String × List String)) (acc : List String),
      acc.Nodup → (l.foldl (vendorStep tl) acc).Nodup := by
  intro l
  induction l with
  | nil => intro acc h; exact h
  | cons kv l ih =>
    intro acc h
    rw [List.foldl_cons]
    by_cases h1 : kv.2.any (fun al => subList (pyLower al).data tl.data) = true
    · by_cases h2 : kv.1 ∈ acc
      · have hstep : vendorStep tl acc kv = acc := by simp [vendorStep, h1, h2]
        rw [hstep]
        exact ih acc h
      · have hstep : vendorStep tl acc kv = acc ++ [kv.1] := by simp [vendorStep, h1, h2]
        rw [hstep]
        refine ih (acc ++ [kv.1]) ?_
        rw [List.nodup_append]
        refine ⟨h, List.nodup_singleton _, ?_⟩
        intro a ha hb
        rw [List.mem_singleton] at hb
        subst hb
        exact h2 ha
    · have hstep : vendorStep tl acc kv = acc := by simp [vendorStep, h1]
      rw [hstep]
      exact ih acc h

/-- C9 (amended): vendor extraction reports a vendor iff one of its aliases is
a substring of the lowercased text (no accent stripping is performed), the
returned list follows the declaration order of the static `KNOWN_VENDORS`
table (not the position of the match in the text), and each vendor appears at
most once. -/
theorem c9_vendor_extraction :
    ∀ text : String,
      (∀ v, v ∈ extract_vendors text ↔
        ∃ aliases, (v, aliases) ∈ KNOWN_VENDORS ∧
          aliases.any (fun al => subList (pyLower al).data (pyLower text).data) = true) ∧
      List.Sublist (extract_vendors text) (KNOWN_VENDORS.map Prod.fst) ∧
      (extract_vendors text).Nodup := by
  intro text
  refine ⟨fun v => ?_, ?_, ?_⟩
  · unfold extract_vendors
    rw [vendorFold_mem]
    simp
  · unfold extract_vendors
    rcases vendorFold_shape (pyLower text) KNOWN_VENDORS [] with ⟨extra, he, hs⟩
    rw [he]
    simpa using hs
  · exact vendorFold_nodup _ KNOWN_VENDORS [] List.nodup_nil

/-- Counterexample to C9 as stated: in `factures metro et distram` the first
alias of `metro` occurs at index 9, before `distram` at index 18, yet the
returned list is `["distram", "metro"]` (table order, not match-position
order); and `facture distràm` yields no vendor although the accent-stripped
text contains the alias `distram` (the code lowercases but never strips
accents). -/
theorem c9_counterexample :
    extract_vendors c9Text = ["distram", "metro"] ∧
    firstIdx "metro".data c9Text.data = some 9 ∧
    firstIdx "distram".data c9Text.data = some 18 ∧
    extract_vendors c9AccentText = [] ∧
    extract_vendors "facture distram" = ["distram"] :=
  ⟨rfl, rfl, rfl, rfl, rfl⟩

/-- Witness for C9: the membership characterisation at a concrete text and
vendor. -/
theorem c9_witness :
    "distram" ∈ extract_vendors c9Text ↔
      ∃ aliases, ("distram", aliases) ∈ KNOWN_VENDORS ∧
        aliases.any (fun al => subList (pyLower al).data (pyLower c9Text).data) = true :=
  (c9_vendor_extraction c9Text).1 "distram"

/-! ## C2 — deduplication by source message id -/

theorem rowFor_email_id (v : String) (e : EmailMsg) (inv : InvoiceData) (tot : InvoiceTotal) :
    dictGet (rowFor v e inv tot) "email_id" = some (.str e.id) := rfl

theorem scanAttachments_shape (gw : Gateway) (acct v : String) (e : EmailMsg) :
    ∀ (atts : List Attachment) (d : List (String × Value)),
      scanAttachments gw acct v e atts = some d →
      ∃ inv tot, d = rowFor v e inv tot := by
  intro atts
  induction atts with
  | nil => intro d hd; simp [scanAttachments] at hd
  | cons att rest ih =>
    intro d hd
    unfold scanAttachments at hd
    split at hd
    · exact ih d hd
    · split at hd
      · split at hd
        · simp at hd
        · split at hd
          · simp only [Option.some.injEq] at hd
            exact ⟨_, _, hd.symm⟩
          · exact ih d hd
      · exact ih d hd

theorem processEmail_shape (gw : Gateway) (acct v : String) (e : EmailMsg)
    (d : List (String × Value)) (hd : processEmail gw acct v e = some d) :
    ∃ inv tot, d = rowFor v e inv tot := by
  unfold processEmail at hd
  split at hd
  · simp at hd
  · exact scanAttachments_shape gw acct v e _ d hd

theorem processStep_good (tables : List TableDoc) (tid : Option String) (gw : Gateway)
    (acct v : String) (st : Nat × List (List (String × Value))) (e : EmailMsg) :
    ∀ d ∈ (processStep tables tid gw acct v st e).2, d ∈ st.2 ∨ goodRow tables tid d := by
  intro d hd
  unfold processStep at hd
  split at hd
  · exact Or.inl hd
  · rename_i h1
    split at hd
    · rename_i row hpe
      rcases List.mem_append.mp hd with h | h
      · exact Or.inl h
      · rw [List.mem_singleton] at h
        subst h
        right
        rcases processEmail_shape gw acct v e d hpe with ⟨inv, tot, hrow⟩
        subst hrow
        refine ⟨e.id, rowFor_email_id v e inv tot, ?_⟩
        intro htru
        cases hchk : check_duplicate tables (tid.getD "") e.id with
        | false => rfl
        | true => exact absurd (by rw [htru, hchk]; rfl) h1
    · exact Or.inl hd

theorem processSearch_good (tables : List TableDoc) (tid : Option String) (gw : Gateway)
    (acct v : String) :
    ∀ (emails : List EmailMsg) (st : Nat × List (List (String × Value))),
      (∀ d ∈ st.2, goodRow tables tid d) →
      ∀ d ∈ (processSearch tables tid gw acct v emails st).2, goodRow tables tid d := by
  intro emails
  induction emails with
  | nil => intro st hst; exact hst
  | cons e es ih =>
    intro st hst
    refine ih (processStep tables tid gw acct v st e) ?_
    intro d hd
    rcases processStep_good tables tid gw acct v st e d hd with h | h
    · exact hst d h
    · exact h

theorem collect_good (gw : Gateway) (env : Env) (db : Db) (auto : AutomationDoc) :
    ∀ d ∈ (collectState gw env db auto).2, goodRow db.tables auto.table_id d := by
  suffices h : ∀ (qs : List (String × String)) (st : Nat × List (List (String × Value))),
      (∀ d ∈ st.2, goodRow db.tables auto.table_id d) →
      ∀ d ∈ (qs.foldl (collectStep gw db.tables auto.table_id auto.account_id) st).2,
        goodRow db.tables auto.table_id d by
    exact h (vendorQueries db env auto) (0, []) (by simp)
  intro qs
  induction qs with
  | nil => intro st hst; exact hst
  | cons q qs ih =>
    intro st hst
    rw [List.foldl_cons]
    refine ih _ ?_
    unfold collectStep
    cases gw.search_emails auto.account_id q.2 with
    | error msg => exact hst
    | ok emails => exact processSearch_good db.tables auto.table_id gw auto.account_id q.1 emails st hst

theorem mkBulkRows_srcIds (fid : Nat → String) (said : Option String) (now : Nat) :
    ∀ (i : Nat) (ds : List (List (String × Value))),
      (mkBulkRows fid said now i ds).filterMap (fun r => r.source_email_id) =
        ds.filterMap (fun d => dictGet d "email_id") := by
  intro i ds
  induction ds generalizing i with
  | nil => rfl
  | cons d ds ih =>
    simp only [mkBulkRows, List.filterMap_cons]
    cases dictGet d "email_id" <;> simp [ih]

theorem mkBulkRows_isEmpty (fid : Nat → String) (said : Option String) (now : Nat)
    (i : Nat) (ds : List (List (String × Value))) :
    (mkBulkRows fid said now i ds).isEmpty = ds.isEmpty := by
  cases ds <;> rfl

theorem check_false_not_mem (tables : List TableDoc) (tid m : String)
    (hchk : check_duplicate tables tid m = false) :
    ∀ t ∈ tables, t.id = tid →
      Value.str m ∉ t.rows.filterMap (fun r => r.source_email_id) := by
  intro t ht htid hmem
  rw [List.mem_filterMap] at hmem
  rcases hmem with ⟨r, hr, hsrc⟩
  unfold check_duplicate at hchk
  rw [List.any_eq_false] at hchk
  have h1 := hchk t ht
  rw [Bool.and_eq_true] at h1
  push_neg at h1
  have h2 := Bool.eq_false_iff.mpr (h1 (by simp [htid]))
  rw [List.any_eq_false] at h2
  exact h2 r hr (by simp [hsrc])

theorem run_tables_eq (gw : Gateway) (env : Env) (db : Db) (aid : String)
    (auto : AutomationDoc) (hfind : db.automations.find? (fun a => a.id = aid) = some auto) :
    (run_automation gw env db aid).1.tables =
      (if optStrTruthy auto.table_id && !(collectState gw env db auto).2.isEmpty then
        (add_rows_bulk db.tables (auto.table_id.getD "") (collectState gw env db auto).2
          (some auto.id) (fun i => env.freshId (i + 1)) env.now).1
      else db.tables) := by
  have hb1 : (run_automation gw env db aid).1.tables =
      (execute_actions gw env db auto).1.tables := by
    simp only [run_automation, run_automation_with, executor, hfind]
    rfl
  rw [hb1]
  simp only [execute_actions]
  rw [apply_ite (fun p : List TableDoc × Nat => p.1)]

/-- C2 (amended): runs never re-insert a message already present in the table
— the dedup check skips every message whose source id is already stored — so
the no-duplicate invariant is preserved by a run provided the batch collected
within that run carries pairwise-distinct message ids (inside one run, the
batch is deduplicated only against the persisted table, not against itself;
see the counterexample). -/
theorem c2_dedup_idempotent :
    ∀ (gw : Gateway) (env : Env) (db : Db) (aid : String) (auto : AutomationDoc),
    db.automations.find? (fun a => a.id = aid) = some auto →
    allNoDupSrc db.tables →
    ((collectState gw env db auto).2.filterMap (fun d => dictGet d "email_id")).Nodup →
    allNoDupSrc (run_automation gw env db aid).1.tables := by
  intro gw env db aid auto hfind hnd hbatch
  rw [run_tables_eq gw env db aid auto hfind]
  split
  · rename_i hcond
    rw [Bool.and_eq_true] at hcond
    obtain ⟨htru, hne⟩ := hcond
    have hne' : ((collectState gw env db auto).2).isEmpty = false := by
      cases h : ((collectState gw env db auto).2).isEmpty
      · rfl
      · rw [h] at hne; simp at hne
    intro t ht
    have hbulk : (add_rows_bulk db.tables (auto.table_id.getD "")
        (collectState gw env db auto).2 (some auto.id) (fun i => env.freshId (i + 1))
        env.now).1 =
        updateFirst (fun t => t.id = auto.table_id.getD "")
          (fun t => { t with
            rows := t.rows ++ mkBulkRows (fun i => env.freshId (i + 1)) (some auto.id)
              env.now 0 (collectState gw env db auto).2,
            updated_at := env.now,
            total_amount := t.total_amount +
              ((collectState gw env db auto).2.map montantDelta).sum }) db.tables := by
      simp only [add_rows_bulk]
      rw [if_neg (by rw [mkBulkRows_isEmpty, hne']; exact Bool.false_ne_true)]
    rw [hbulk] at ht
    rcases mem_updateFirst _ _ db.tables t ht with h1 | ⟨y, hy, hpy, hxy⟩
    · exact hnd t h1
    · subst hxy
      show ((y.rows ++ _).filterMap (fun r => r.source_email_id)).Nodup
      rw [List.filterMap_append, mkBulkRows_srcIds, List.nodup_append]
      refine ⟨hnd y hy, hbatch, ?_⟩
      intro a ha hb
      rw [List.mem_filterMap] at hb
      rcases hb with ⟨d, hd, hdg⟩
      rcases collect_good gw env db auto d hd with ⟨m, hm, hcm⟩
      rw [hm] at hdg
      injection hdg with hdg
      subst hdg
      exact check_false_not_mem db.tables (auto.table_id.getD "") m (hcm htru) y hy
        (of_decide_eq_true hpy) ha
  · exact hnd

/-- Counterexample to C2 as stated: one vendor resolving to the same address
twice makes a single run search the same query twice; the same message passes
the dedup check both times (the check only sees the persisted table), so the
table ends up with two rows whose source message id is `mD`. -/
theorem c2_counterexample :
    allNoDupSrc db2.tables ∧
    ((run_automation gw2 env0 db2 "a2").1.tables.map
      (fun t => t.rows.filterMap (fun r => r.source_email_id))) =
      [[Value.str "mD", Value.str "mD"]] ∧
    ¬ allNoDupSrc (run_automation gw2 env0 db2 "a2").1.tables := by
  refine ⟨?_, rfl, ?_⟩
  · intro t ht
    rw [show db2.tables = [table2] from rfl, List.mem_singleton] at ht
    subst ht
    show (table2.rows.filterMap (fun r => r.source_email_id)).Nodup
    rw [show table2.rows = [] from rfl]
    simp
  · intro hall
    have hmap : ((run_automation gw2 env0 db2 "a2").1.tables.map
        (fun t => t.rows.filterMap (fun r => r.source_email_id))) =
        [[Value.str "mD", Value.str "mD"]] := rfl
    cases htab : (run_automation gw2 env0 db2 "a2").1.tables with
    | nil => rw [htab] at hmap; simp at hmap
    | cons t ts =>
      rw [htab] at hmap
      simp only [List.map_cons, List.cons.injEq] at hmap
      have hdup := hall t (htab ▸ List.mem_cons_self t ts)
      unfold noDupSrc at hdup
      rw [hmap.1] at hdup
      simp at hdup

/-- Witness for C2: the three-vendor run collects distinct message ids and the
resulting tables stay free of duplicate source ids. -/
theorem c2_witness : allNoDupSrc (run_automation gw7 env0 db7 "a7").1.tables := by
  refine c2_dedup_idempotent gw7 env0 db7 "a7" auto7 rfl ?_ ?_
  · intro t ht
    rw [show db7.tables = [table7] from rfl, List.mem_singleton] at ht
    subst ht
    show (table7.rows.filterMap (fun r => r.source_email_id)).Nodup
    rw [show table7.rows = [] from rfl]
    simp
  · rw [show ((collectState gw7 env0 db7 auto7).2.filterMap (fun d => dictGet d "email_id")) =
        [Value.str "mA", Value.str "mG"] from rfl]
    simp

end InboxCopilot
